import Mathlib

/-!
# Verification of the PDF-Combine page-assembly and overlay-merge pipeline

Shallow embedding of `src/PDFCombine.py` (the PDF Combiner application).

Modelling conventions:
* Coordinates, page dimensions and colour channels are rational numbers `ℚ`
  (the Python code uses floats; all the arithmetic the claims are about is
  exact: divisions by the zoom factor, subtraction from the page height and
  division of 8-bit colour channels by 255).
* The filesystem and the fallible library calls (`PyPDF2.PdfReader`,
  `reportlab` canvas drawing, `merge_page`, the final `output.write`) are
  modelled by an explicit environment `Env`: each Python `try/except` block
  of the source corresponds to an `Option`/`Bool` outcome supplied by `Env`.
* Qt widget state is made explicit: the thumbnail list widget becomes
  `ListState` (its item list plus the current row, `-1` meaning "no
  selection", exactly Qt's convention), and the editor dialog's
  `QGraphicsScene` becomes a list of scene items kept in insertion order
  (bottom-to-top stacking).  `QGraphicsScene.items()` returns items in
  descending stacking order — the topmost item first — and sibling items
  with equal z-value (the default for every item here) stack in insertion
  order, later items on top; hence `items()` is the reverse of the
  insertion-order list.
* `print`-based error reports of the source become `Warning` values.
-/

/-- One text overlay record, as stored in `PageData.direct_texts`
(`src/PDFCombine.py` lines 218-225): text content, PDF-point position
(bottom-left origin), font family and size, and an RGB colour with each
channel in `[0,1]`. -/
structure TextData where
  text : String
  x : ℚ
  y : ℚ
  font_family : String
  font_size : Int
  color : ℚ × ℚ × ℚ
deriving DecidableEq, Repr

/-- One page of a source PDF file as the export pipeline sees it through
`PyPDF2.PdfReader`: its media-box width and height in points and an abstract
identifier standing for the literal page content object. -/
structure SrcPage where
  width : ℚ
  height : ℚ
  content : Nat
deriving DecidableEq, Repr

/-- `PageData` (`src/PDFCombine.py` lines 53-60): one entry of the assembly,
referencing a source PDF path and a 0-indexed page number, holding a display
pixmap (abstract bitmap identifier) and the list of direct text overlays. -/
structure PageData where
  pdf_path : String
  page_number : Nat
  pixmap : Nat
  direct_texts : List TextData
deriving DecidableEq, Repr

/-- The external environment: outcomes of every fallible library call the
source wraps in `try/except`, plus the renderer used for thumbnails.
* `fs path` — what `PyPDF2.PdfReader path` (and the `fitz` page-count walk
  of `convert_pdf_to_images`) sees: `none` when the file cannot be opened,
  otherwise its list of pages.
* `render path i` — abstract bitmap produced for page `i` of `path`.
* `drawOk td` — whether the `canvas.setFont`/`setFillColorRGB`/`drawString`
  block succeeds for overlay record `td` (e.g. `false` for an unresolvable
  font family).
* `mergeOk i` — whether reading back the generated overlay document and
  `merge_page` succeed for the entry at position `i` of the export loop.
* `writeOk` — whether opening the output path and `output.write` succeed. -/
structure Env where
  fs : String → Option (List SrcPage)
  render : String → Nat → Nat
  drawOk : TextData → Bool
  mergeOk : Nat → Bool
  writeOk : Bool

/-- The messages the source reports via `print` in its `except` branches. -/
inductive Warning where
  | readError (path : String) (page_number : Nat)
  | drawError (td : TextData)
  | mergeError (i : Nat)
  | writeError
deriving DecidableEq, Repr

/-- Final outcome of an export run. -/
inductive ExportStatus where
  | Completed
  | Failed
deriving DecidableEq, Repr

/-- One page of the produced output document: the source page plus the list
of overlay text draws merged onto it, in draw order (a later draw paints on
top of an earlier one). -/
structure OutPage where
  src : SrcPage
  overlay : List TextData
deriving DecidableEq, Repr

/-- Result of an export run: output pages in order, reported warnings, and
the final status. -/
structure ExportResult where
  pages : List OutPage
  warnings : List Warning
  status : ExportStatus
deriving DecidableEq, Repr

/-! ## Coordinate transform -/

/-- The screen-to-PDF coordinate transform applied at editor-session commit
(`src/PDFCombine.py` lines 207-209):
`pdf_x = pos.x() / self.direct_zoom`;
`pdf_y = self.pdf_height - (pos.y() / self.direct_zoom)`. -/
def screen_to_pdf (sx sy zoom page_height_pt : ℚ) : ℚ × ℚ :=
  (sx / zoom, page_height_pt - sy / zoom)

/-- Modelled from the spec: `pdf_to_screen` does not occur in
`src/PDFCombine.py`; the spec (§4.2) defines it as the exact inverse of
`screen_to_pdf` under the same zoom and page height. -/
def pdf_to_screen (px py zoom page_height_pt : ℚ) : ℚ × ℚ :=
  (px * zoom, (page_height_pt - py) * zoom)

/-! ## Direct Text Dialog (editor session) -/

/-- A `DirectTextItem` on the editor scene (`src/PDFCombine.py` lines
68-77): its scene position (top-left origin, zoom-scaled pixels), text,
font, and Qt colour with 8-bit channels. -/
structure DirectTextItem where
  posX : ℚ
  posY : ℚ
  text : String
  font_family : String
  font_size : Int
  colorR : Nat
  colorG : Nat
  colorB : Nat
deriving DecidableEq, Repr

/-- An item of the dialog's `QGraphicsScene`: the background page pixmap
(added first by `__init__`, line 147) or a direct text item. -/
inductive SceneItem where
  | pixmapItem
  | textItem (it : DirectTextItem)
deriving DecidableEq, Repr

/-- The `DirectTextDialog` state (`src/PDFCombine.py` lines 127-168): the
zoom factor, the page's native PDF dimensions in points, and the scene's
items in insertion order (bottom-to-top stacking). -/
structure DirectTextDialog where
  direct_zoom : ℚ
  pdf_width : ℚ
  pdf_height : ℚ
  sceneItems : List SceneItem
deriving DecidableEq, Repr

/-- Extract the direct text item of a scene item, if it is one (the
`isinstance(item, DirectTextItem)` filter of `getDirectTexts`). -/
def sceneItemText : SceneItem → Option DirectTextItem
  | SceneItem.pixmapItem => none
  | SceneItem.textItem it => some it

/-- The overlay record built for one scene item by `getDirectTexts`
(`src/PDFCombine.py` lines 207-225): position converted to PDF points via
the session's zoom and page height, colour channels divided by 255. -/
def itemToTextData (d : DirectTextDialog) (it : DirectTextItem) : TextData :=
  { text := it.text
    x := it.posX / d.direct_zoom
    y := d.pdf_height - it.posY / d.direct_zoom
    font_family := it.font_family
    font_size := it.font_size
    color := ((it.colorR : ℚ) / 255, (it.colorG : ℚ) / 255, (it.colorB : ℚ) / 255) }

/-- `DirectTextDialog.getDirectTexts` (`src/PDFCombine.py` lines 188-226):
iterates over `self.scene.items()` — descending stacking order, i.e. the
reverse of the insertion-order list — keeps the `DirectTextItem`s and
converts each to an overlay record. -/
def getDirectTexts (d : DirectTextDialog) : List TextData :=
  (d.sceneItems.reverse.filterMap sceneItemText).map (itemToTextData d)

/-- The dialog's remaining drafts in creation (insertion) order. -/
def drafts (d : DirectTextDialog) : List DirectTextItem :=
  d.sceneItems.filterMap sceneItemText

/-! ## Main window: assembly operations -/

/-- The state of the main window's thumbnail list: the assembly entries in
order plus the current row (`-1` when nothing is selected, Qt's
convention). -/
structure ListState where
  items : List PageData
  currentRow : Int
deriving DecidableEq, Repr

/-- `MainWindow.move_up` (`src/PDFCombine.py` lines 316-321): if the
current row is positive, take the item out and re-insert it one slot
earlier, keeping it selected. -/
def move_up (s : ListState) : ListState :=
  if 0 < s.currentRow then
    match s.items[s.currentRow.toNat]? with
    | some it =>
        { items := (s.items.eraseIdx s.currentRow.toNat).insertIdx (s.currentRow.toNat - 1) it
          currentRow := s.currentRow - 1 }
    | none => s
  else s

/-- `MainWindow.move_down` (`src/PDFCombine.py` lines 323-328): if the
current row is below the last row and a row is selected, take the item out
and re-insert it one slot later, keeping it selected. -/
def move_down (s : ListState) : ListState :=
  if s.currentRow < (s.items.length : Int) - 1 ∧ s.currentRow ≠ -1 then
    match s.items[s.currentRow.toNat]? with
    | some it =>
        { items := (s.items.eraseIdx s.currentRow.toNat).insertIdx (s.currentRow.toNat + 1) it
          currentRow := s.currentRow + 1 }
    | none => s
  else s

/-- Adding one chosen file in `MainWindow.add_pdf` (`src/PDFCombine.py`
lines 282-297): render the file's pages (this opens the file; an
unreadable file raises, the `except` prints and leaves the list as it
was), then append one fresh `PageData` per page, index `0..n-1`, each with
empty `direct_texts`. -/
def add_pdf_path (env : Env) (items : List PageData) (path : String) : List PageData :=
  match env.fs path with
  | none => items
  | some pages =>
      items ++ (List.range pages.length).map fun i =>
        { pdf_path := path, page_number := i, pixmap := env.render path i, direct_texts := [] }

/-- `MainWindow.add_pdf` over the whole list of chosen paths. -/
def add_pdf (env : Env) (items : List PageData) (paths : List String) : List PageData :=
  paths.foldl (add_pdf_path env) items

/-- `MainWindow.remove_selected` (`src/PDFCombine.py` lines 299-302):
remove the selected entries (here: the set of selected positions), the
order of the remaining entries preserved. -/
def remove_selected (sel : Nat → Bool) (items : List PageData) : List PageData :=
  (items.enum.filter fun p => ! sel p.1).map Prod.snd

/-! ## Export pipeline -/

/-- Opening an entry's source and extracting its page object — the body of
the first `try` of the export loop (`src/PDFCombine.py` lines 338-340):
`PyPDF2.PdfReader(page_data.pdf_path).pages[page_data.page_number]`.
`none` when the file cannot be opened or the index is out of range. -/
def resolvePage (env : Env) (pd : PageData) : Option SrcPage :=
  (env.fs pd.pdf_path).bind fun pages => pages[pd.page_number]?

/-- One iteration of the export loop (`src/PDFCombine.py` lines 335-365)
for the entry at loop position `i`: resolve the source page (on failure
report and skip); if the entry has direct texts, draw each overlay on a
fresh canvas — a failing draw is reported and skipped, the rest are drawn
in list order — and merge the canvas onto the page (a failing merge is
reported and the page keeps no overlay); the page is then appended.
Returns the page to append (if any) and the reported warnings. -/
def exportEntry (env : Env) (i : Nat) (pd : PageData) : Option OutPage × List Warning :=
  match resolvePage env pd with
  | none => (none, [Warning.readError pd.pdf_path pd.page_number])
  | some p =>
      if pd.direct_texts.isEmpty then (some { src := p, overlay := [] }, [])
      else
        let drawn := pd.direct_texts.filter fun td => env.drawOk td
        let dws := (pd.direct_texts.filter fun td => ! env.drawOk td).map Warning.drawError
        if env.mergeOk i then (some { src := p, overlay := drawn }, dws)
        else (some { src := p, overlay := [] }, dws ++ [Warning.mergeError i])

/-- The export loop over the remaining entries, `i` the loop position of
the first one: concatenates the appended pages and the warnings in order. -/
def exportLoop (env : Env) : Nat → List PageData → List OutPage × List Warning
  | _, [] => ([], [])
  | i, pd :: rest =>
      let r := exportEntry env i pd
      let rest2 := exportLoop env (i + 1) rest
      (r.1.toList ++ rest2.1, r.2 ++ rest2.2)

/-- `MainWindow.export_pdf` (`src/PDFCombine.py` lines 330-371): run the
loop over all entries, then write the output file; the run fails exactly
when the final write raises (there is no check on the number of pages
collected), otherwise it completes, its per-page warnings notwithstanding. -/
def export_pdf (env : Env) (items : List PageData) : ExportResult :=
  let r := exportLoop env 0 items
  { pages := r.1
    warnings := r.2 ++ (if env.writeOk then [] else [Warning.writeError])
    status := if env.writeOk then ExportStatus.Completed else ExportStatus.Failed }

/-! ## Helper lemmas -/

theorem exportEntry_none (env : Env) (i : Nat) (pd : PageData)
    (h : resolvePage env pd = none) :
    exportEntry env i pd = (none, [Warning.readError pd.pdf_path pd.page_number]) := by
  unfold exportEntry
  rw [h]

theorem exportEntry_some (env : Env) (i : Nat) (pd : PageData) (p : SrcPage)
    (h : resolvePage env pd = some p) :
    ∃ ops ws, exportEntry env i pd = (some { src := p, overlay := ops }, ws) := by
  by_cases he : pd.direct_texts.isEmpty
  · refine ⟨[], [], ?_⟩
    simp [exportEntry, h, he]
  · by_cases hm : env.mergeOk i
    · refine ⟨pd.direct_texts.filter fun td => env.drawOk td,
        (pd.direct_texts.filter fun td => !env.drawOk td).map Warning.drawError, ?_⟩
      simp [exportEntry, h, he, hm]
    · refine ⟨[],
        (pd.direct_texts.filter fun td => !env.drawOk td).map Warning.drawError
          ++ [Warning.mergeError i], ?_⟩
      simp [exportEntry, h, he, hm]

theorem perm_insertIdx_cons (x : α) :
    ∀ (k : Nat) (l : List α), k ≤ l.length → (l.insertIdx k x).Perm (x :: l)
  | 0, l, _ => by
      rw [List.insertIdx_zero]
  | k + 1, [], h => by
      simp at h
  | k + 1, a :: t, h => by
      rw [List.insertIdx_succ_cons]
      exact ((perm_insertIdx_cons x k t (by simpa using h)).cons a).trans
        (List.Perm.swap x a t)

theorem perm_cons_eraseIdx (x : α) :
    ∀ (r : Nat) (l : List α), l[r]? = some x → (x :: l.eraseIdx r).Perm l
  | 0, a :: t, h => by
      simp only [List.getElem?_cons_zero, Option.some.injEq] at h
      subst h
      rw [List.eraseIdx_cons_zero]
  | r + 1, a :: t, h => by
      rw [List.eraseIdx_cons_succ]
      have ih := perm_cons_eraseIdx x r t (by simpa using h)
      exact (List.Perm.swap a x (t.eraseIdx r)).trans (ih.cons a)

theorem erase_insert_perm (x : α) (k r : Nat) (l : List α)
    (h : l[r]? = some x) (hk : k ≤ l.length - 1) :
    ((l.eraseIdx r).insertIdx k x).Perm l := by
  have hr : r < l.length := by
    by_contra hc
    rw [List.getElem?_eq_none (by omega)] at h
    exact Option.noConfusion h
  have hlen : (l.eraseIdx r).length = l.length - 1 := List.length_eraseIdx_of_lt hr
  exact (perm_insertIdx_cons x k (l.eraseIdx r) (by omega)).trans (perm_cons_eraseIdx x r l h)

theorem erase_insert_roundtrip (x : α) :
    ∀ (r : Nat) (l : List α), l[r]? = some x → r + 1 < l.length →
      (((l.eraseIdx r).insertIdx (r + 1) x)[r + 1]? = some x) ∧
      ((((l.eraseIdx r).insertIdx (r + 1) x).eraseIdx (r + 1)).insertIdx r x = l)
  | 0, [], h, _ => by
      simp at h
  | 0, [a], _, hlen => by
      simp at hlen
  | 0, a :: b :: t, h, _ => by
      simp only [List.getElem?_cons_zero, Option.some.injEq] at h
      subst h
      refine ⟨?_, ?_⟩ <;>
        simp [List.eraseIdx_cons_zero, List.eraseIdx_cons_succ,
          List.insertIdx_succ_cons, List.insertIdx_zero]
  | r + 1, [], h, _ => by
      simp at h
  | r + 1, a :: t, h, hlen => by
      have h2 : t[r]? = some x := by simpa using h
      have hlen2 : r + 1 < t.length := by
        simp only [List.length_cons] at hlen
        omega
      obtain ⟨ih1, ih2⟩ := erase_insert_roundtrip x r t h2 hlen2
      constructor
      · rw [List.eraseIdx_cons_succ, List.insertIdx_succ_cons, List.getElem?_cons_succ]
        exact ih1
      · rw [List.eraseIdx_cons_succ, List.insertIdx_succ_cons, List.eraseIdx_cons_succ,
          List.insertIdx_succ_cons, ih2]

/-! ## Concrete fixtures used by witnesses and counterexamples -/

/-- A US-letter source page. -/
def pFixA : SrcPage := { width := 612, height := 792, content := 1 }

/-- An A4 source page. -/
def pFixC : SrcPage := { width := 595, height := 842, content := 3 }

/-- A concrete environment: `a.pdf` and `c.pdf` are one-page readable
files, every other path is unreadable; the font family `NoSuchFont` fails
to draw; merging and the final write succeed. -/
def envFix : Env :=
  { fs := fun path =>
      if path = "a.pdf" then some [pFixA]
      else if path = "c.pdf" then some [pFixC]
      else none
    render := fun _ i => i
    drawOk := fun td => td.font_family != "NoSuchFont"
    mergeOk := fun _ => true
    writeOk := true }

/-- `envFix` with a failing overlay merge step. -/
def envFixNoMerge : Env := { envFix with mergeOk := fun _ => false }

def tdGood : TextData :=
  { text := "Hi", x := 72, y := 72, font_family := "Helvetica", font_size := 12,
    color := (0, 0, 0) }

def tdBad : TextData :=
  { text := "Oops", x := 10, y := 20, font_family := "NoSuchFont", font_size := 12,
    color := (0, 0, 0) }

def entryFixA : PageData :=
  { pdf_path := "a.pdf", page_number := 0, pixmap := 0, direct_texts := [] }

def entryFixB : PageData :=
  { pdf_path := "b.pdf", page_number := 0, pixmap := 0, direct_texts := [] }

def entryFixC : PageData :=
  { pdf_path := "c.pdf", page_number := 0, pixmap := 0, direct_texts := [] }

/-- An entry on `a.pdf` with one undrawable and one drawable overlay. -/
def entryFixD : PageData :=
  { pdf_path := "a.pdf", page_number := 0, pixmap := 0, direct_texts := [tdBad, tdGood] }

def pdFixA : PageData :=
  { pdf_path := "a.pdf", page_number := 0, pixmap := 0, direct_texts := [] }

def pdFixB : PageData :=
  { pdf_path := "a.pdf", page_number := 1, pixmap := 1, direct_texts := [] }

def itFixA : DirectTextItem :=
  { posX := 100, posY := 40, text := "A", font_family := "Helvetica", font_size := 12,
    colorR := 255, colorG := 0, colorB := 0 }

def itFixB : DirectTextItem :=
  { posX := 30, posY := 60, text := "B", font_family := "Helvetica", font_size := 12,
    colorR := 0, colorG := 0, colorB := 0 }

/-- A dialog scene holding the background pixmap and two text items,
`itFixA` created before `itFixB`. -/
def dlgFix : DirectTextDialog :=
  { direct_zoom := 2, pdf_width := 612, pdf_height := 792,
    sceneItems := [SceneItem.pixmapItem, SceneItem.textItem itFixA, SceneItem.textItem itFixB] }

/-! ## Claim theorems -/

/-- C1: during export, an entry whose source cannot be opened or whose page
index is invalid is skipped, its failure is reported, and export continues:
for three entries of which exactly the second is unresolvable, the output
holds the other two pages in order, the read failure appears among the
warnings, and the run completes rather than failing. -/
theorem export_skips_unresolvable_entry (env : Env) (e1 e2 e3 : PageData)
    (p1 p3 : SrcPage)
    (h1 : resolvePage env e1 = some p1) (h2 : resolvePage env e2 = none)
    (h3 : resolvePage env e3 = some p3) (hw : env.writeOk = true) :
    (export_pdf env [e1, e2, e3]).pages.map OutPage.src = [p1, p3] ∧
    Warning.readError e2.pdf_path e2.page_number ∈ (export_pdf env [e1, e2, e3]).warnings ∧
    (export_pdf env [e1, e2, e3]).status = ExportStatus.Completed := by
  obtain ⟨ops1, ws1, he1⟩ := exportEntry_some env 0 e1 p1 h1
  obtain ⟨ops3, ws3, he3⟩ := exportEntry_some env 2 e3 p3 h3
  have he2 := exportEntry_none env 1 e2 h2
  refine ⟨?_, ?_, ?_⟩ <;>
    simp [export_pdf, exportLoop, he1, he2, he3, hw]

/-- C1 witness: a concrete three-entry assembly whose middle entry points
at the unreadable `b.pdf`. -/
theorem export_skips_unresolvable_entry_witness :
    (export_pdf envFix [entryFixA, entryFixB, entryFixC]).pages.map OutPage.src
        = [pFixA, pFixC] ∧
    Warning.readError entryFixB.pdf_path entryFixB.page_number
        ∈ (export_pdf envFix [entryFixA, entryFixB, entryFixC]).warnings ∧
    (export_pdf envFix [entryFixA, entryFixB, entryFixC]).status = ExportStatus.Completed :=
  export_skips_unresolvable_entry envFix entryFixA entryFixB entryFixC pFixA pFixC
    (by decide) (by decide) (by decide) (by decide)

/-- C2 counterexample: exporting an assembly with zero entries while the
output path is writable adds zero pages yet does not end in `Failed` — the
code attempts the final write unconditionally and reports success, so the
claimed "`Failed` when zero pages were added" direction is false. -/
theorem export_empty_assembly_completes :
    envFix.writeOk = true ∧
    (export_pdf envFix []).pages.length = 0 ∧
    (export_pdf envFix []).status ≠ ExportStatus.Failed := by
  decide

/-- C2 amended: the export run ends in `Failed` exactly when the final
write fails, whatever the number of pages added and whatever per-page
warnings accumulated; in particular an assembly with zero entries produces
an empty, successfully completed output when the write succeeds. -/
theorem export_failed_iff_write_fails (env : Env) (items : List PageData) :
    ((export_pdf env items).status = ExportStatus.Failed ↔ env.writeOk = false) ∧
    (env.writeOk = true →
      (export_pdf env []).pages = [] ∧ (export_pdf env []).status = ExportStatus.Completed) := by
  constructor
  · cases hw : env.writeOk <;> simp [export_pdf, hw]
  · intro hw
    simp [export_pdf, exportLoop, hw]

/-- C2 amended witness: the empty assembly against the concrete writable
environment. -/
theorem export_failed_iff_write_fails_witness :
    (export_pdf envFix []).pages = [] ∧
    (export_pdf envFix []).status = ExportStatus.Completed :=
  (export_failed_iff_write_fails envFix []).2 (by decide)

/-- C3: for every draft on the editor scene, the overlay record emitted at
commit carries exactly `x = sx / zoom` and `y = page_height_pt - sy / zoom`,
converting the top-left-origin, zoom-scaled screen position into a
bottom-left-origin position in PDF points. -/
theorem commit_applies_screen_to_pdf (d : DirectTextDialog) (it : DirectTextItem)
    (h : SceneItem.textItem it ∈ d.sceneItems) :
    ∃ td ∈ getDirectTexts d,
      td.text = it.text ∧
      td.x = it.posX / d.direct_zoom ∧
      td.y = d.pdf_height - it.posY / d.direct_zoom := by
  have h2 : it ∈ d.sceneItems.reverse.filterMap sceneItemText := by
    rw [List.mem_filterMap]
    exact ⟨SceneItem.textItem it, List.mem_reverse.mpr h, rfl⟩
  exact ⟨itemToTextData d it, List.mem_map_of_mem _ h2, rfl, rfl, rfl⟩

/-- C3 witness: the first text item of the concrete dialog. -/
theorem commit_applies_screen_to_pdf_witness :
    ∃ td ∈ getDirectTexts dlgFix,
      td.text = itFixA.text ∧
      td.x = itFixA.posX / dlgFix.direct_zoom ∧
      td.y = dlgFix.pdf_height - itFixA.posY / dlgFix.direct_zoom :=
  commit_applies_screen_to_pdf dlgFix itFixA (by decide)

/-- C4 counterexample: on a scene where `itFixA` was created before
`itFixB`, commit emits the records in the order B, A — the reverse of
creation order, because `QGraphicsScene.items()` lists the topmost (most
recently added) item first — so "emitted in creation order" is false. -/
theorem commit_order_counterexample :
    getDirectTexts dlgFix = [itemToTextData dlgFix itFixB, itemToTextData dlgFix itFixA] ∧
    getDirectTexts dlgFix ≠ [itemToTextData dlgFix itFixA, itemToTextData dlgFix itFixB] := by
  refine ⟨rfl, fun hEq => ?_⟩
  have hTexts : (getDirectTexts dlgFix).map TextData.text = ["A", "B"] := by
    rw [hEq]
    rfl
  have hTexts2 : (getDirectTexts dlgFix).map TextData.text = ["B", "A"] := rfl
  rw [hTexts] at hTexts2
  exact absurd hTexts2 (by decide)

/-- C4 amended: commit emits the remaining drafts in reverse creation
order (the scene lists the topmost, most recently created item first), and
at export the resulting overlays list is drawn in list order, a later list
entry painted on top of an earlier one. -/
theorem commit_emits_reverse_creation_order (d : DirectTextDialog) (env : Env)
    (i : Nat) (pd : PageData) (p : SrcPage)
    (h : resolvePage env pd = some p) (hm : env.mergeOk i = true) :
    getDirectTexts d = ((drafts d).map (itemToTextData d)).reverse ∧
    (exportEntry env i pd).1 =
      some { src := p, overlay := pd.direct_texts.filter fun td => env.drawOk td } := by
  constructor
  · simp [getDirectTexts, drafts, List.filterMap_reverse, List.map_reverse]
  · by_cases he : pd.direct_texts.isEmpty
    · have hnil : pd.direct_texts = [] := List.isEmpty_iff.mp he
      simp [exportEntry, h, he, hnil]
    · simp [exportEntry, h, he, hm]

/-- C4 amended witness: the concrete dialog and the concrete overlaid
entry. -/
theorem commit_emits_reverse_creation_order_witness :
    getDirectTexts dlgFix = ((drafts dlgFix).map (itemToTextData dlgFix)).reverse ∧
    (exportEntry envFix 0 entryFixD).1 =
      some { src := pFixA, overlay := entryFixD.direct_texts.filter fun td => envFix.drawOk td } :=
  commit_emits_reverse_creation_order dlgFix envFix 0 entryFixD pFixA (by decide) (by decide)

/-- C5: on a resolvable page, a failing overlay draw is caught: the page is
still produced; when the merge step succeeds the page carries exactly the
overlays whose draw succeeded, in list order; and every failing overlay is
reported. -/
theorem overlay_draw_failure_is_skipped (env : Env) (i : Nat) (pd : PageData)
    (p : SrcPage) (h : resolvePage env pd = some p) :
    ((exportEntry env i pd).1).isSome = true ∧
    (env.mergeOk i = true →
      (exportEntry env i pd).1 =
        some { src := p, overlay := pd.direct_texts.filter fun td => env.drawOk td }) ∧
    (∀ td ∈ pd.direct_texts, env.drawOk td = false →
      Warning.drawError td ∈ (exportEntry env i pd).2) := by
  refine ⟨?_, ?_, ?_⟩
  · obtain ⟨ops, ws, he⟩ := exportEntry_some env i pd p h
    simp [he]
  · intro hm
    by_cases he : pd.direct_texts.isEmpty
    · have hnil : pd.direct_texts = [] := List.isEmpty_iff.mp he
      simp [exportEntry, h, he, hnil]
    · simp [exportEntry, h, he, hm]
  · intro td htd hbad
    have he : pd.direct_texts.isEmpty = false := by
      cases hl : pd.direct_texts with
      | nil => rw [hl] at htd; cases htd
      | cons a t => rfl
    by_cases hm : env.mergeOk i <;>
      simp [exportEntry, h, he, hm, List.mem_map] <;>
      exact ⟨htd, hbad⟩

/-- C5 witness: the entry carrying one undrawable (`NoSuchFont`) and one
drawable overlay against the concrete environment. -/
theorem overlay_draw_failure_is_skipped_witness :
    ((exportEntry envFix 0 entryFixD).1).isSome = true ∧
    (envFix.mergeOk 0 = true →
      (exportEntry envFix 0 entryFixD).1 =
        some { src := pFixA, overlay := entryFixD.direct_texts.filter fun td => envFix.drawOk td }) ∧
    (∀ td ∈ entryFixD.direct_texts, envFix.drawOk td = false →
      Warning.drawError td ∈ (exportEntry envFix 0 entryFixD).2) :=
  overlay_draw_failure_is_skipped envFix 0 entryFixD pFixA (by decide)

/-- C9: when the overlay layer of a page with overlays fails to merge as a
whole, the source page is still appended, without its overlays, and the
merge failure is reported — the page is never dropped for a merge failure. -/
theorem merge_failure_keeps_source_page (env : Env) (i : Nat) (pd : PageData)
    (p : SrcPage) (h : resolvePage env pd = some p)
    (hm : env.mergeOk i = false) (hne : pd.direct_texts ≠ []) :
    (exportEntry env i pd).1 = some { src := p, overlay := [] } ∧
    Warning.mergeError i ∈ (exportEntry env i pd).2 := by
  have he : pd.direct_texts.isEmpty = false := by
    cases hl : pd.direct_texts with
    | nil => exact absurd hl hne
    | cons a t => rfl
  constructor <;> simp [exportEntry, h, he, hm]

/-- C9 witness: the overlaid entry against the environment whose merge
step fails. -/
theorem merge_failure_keeps_source_page_witness :
    (exportEntry envFixNoMerge 0 entryFixD).1 = some { src := pFixA, overlay := [] } ∧
    Warning.mergeError 0 ∈ (exportEntry envFixNoMerge 0 entryFixD).2 :=
  merge_failure_keeps_source_page envFixNoMerge 0 entryFixD pFixA
    (by decide) (by decide) (by decide)

/-! ## Equation lemmas for the move operations -/

theorem move_up_noop (s : ListState) (hc : ¬ 0 < s.currentRow) : move_up s = s := by
  unfold move_up
  rw [if_neg hc]

theorem move_up_noop_of_none (s : ListState)
    (hx : s.items[s.currentRow.toNat]? = none) : move_up s = s := by
  unfold move_up
  by_cases hc : 0 < s.currentRow
  · rw [if_pos hc, hx]
  · rw [if_neg hc]

theorem move_up_eq_of_get (s : ListState) (hc : 0 < s.currentRow) (it : PageData)
    (hx : s.items[s.currentRow.toNat]? = some it) :
    move_up s =
      { items := (s.items.eraseIdx s.currentRow.toNat).insertIdx (s.currentRow.toNat - 1) it
        currentRow := s.currentRow - 1 } := by
  unfold move_up
  rw [if_pos hc, hx]

theorem move_down_noop (s : ListState)
    (hc : ¬ (s.currentRow < (s.items.length : Int) - 1 ∧ s.currentRow ≠ -1)) :
    move_down s = s := by
  unfold move_down
  rw [if_neg hc]

theorem move_down_noop_of_none (s : ListState)
    (hx : s.items[s.currentRow.toNat]? = none) : move_down s = s := by
  unfold move_down
  by_cases hc : s.currentRow < (s.items.length : Int) - 1 ∧ s.currentRow ≠ -1
  · rw [if_pos hc, hx]
  · rw [if_neg hc]

theorem move_down_eq_of_get (s : ListState)
    (hc : s.currentRow < (s.items.length : Int) - 1 ∧ s.currentRow ≠ -1)
    (it : PageData) (hx : s.items[s.currentRow.toNat]? = some it) :
    move_down s =
      { items := (s.items.eraseIdx s.currentRow.toNat).insertIdx (s.currentRow.toNat + 1) it
        currentRow := s.currentRow + 1 } := by
  unfold move_down
  rw [if_pos hc, hx]

/-! ## Claim theorems, continued -/

/-- C6 counterexample: with two entries and the last one selected,
move-down is a no-op (the clamp) but the following move-up still moves the
entry one slot earlier, so "move(id, +1) then move(id, -1) restores the
original order" fails for an entry at the last position. -/
theorem move_roundtrip_counterexample :
    (move_up (move_down { items := [pdFixA, pdFixB], currentRow := 1 })).items
      ≠ [pdFixA, pdFixB] := by
  decide

/-- C6 amended: the move operations never change the set of entries, only
their order (their item lists are permutations of the original); a move
past the last position is a no-op; and move-down followed by move-up
restores the state exactly for every selected entry that is not at the
last position (for the last entry the round trip instead moves it up one
slot, as the counterexample shows). -/
theorem move_preserves_entries_and_roundtrips (s : ListState)
    (hwf : -1 ≤ s.currentRow) :
    ((move_up s).items).Perm s.items ∧
    ((move_down s).items).Perm s.items ∧
    (s.currentRow = (s.items.length : Int) - 1 → move_down s = s) ∧
    (0 ≤ s.currentRow → s.currentRow < (s.items.length : Int) - 1 →
      move_up (move_down s) = s) := by
  obtain ⟨l, c⟩ := s
  change -1 ≤ c at hwf
  refine ⟨?_, ?_, ?_, ?_⟩
  · by_cases hc : 0 < c
    · cases hx : l[c.toNat]? with
      | none =>
          rw [move_up_noop_of_none ⟨l, c⟩ hx]
      | some it =>
          rw [move_up_eq_of_get ⟨l, c⟩ hc it hx]
          have hlt : c.toNat < l.length := by
            by_contra hlen
            rw [List.getElem?_eq_none (by omega)] at hx
            exact Option.noConfusion hx
          exact erase_insert_perm it (c.toNat - 1) c.toNat l hx (by omega)
    · rw [move_up_noop ⟨l, c⟩ hc]
  · by_cases hc : c < (l.length : Int) - 1 ∧ c ≠ -1
    · cases hx : l[c.toNat]? with
      | none =>
          rw [move_down_noop_of_none ⟨l, c⟩ hx]
      | some it =>
          rw [move_down_eq_of_get ⟨l, c⟩ hc it hx]
          have hc0 : 0 ≤ c := by omega
          have hlt : c.toNat < l.length := by
            by_contra hlen
            rw [List.getElem?_eq_none (by omega)] at hx
            exact Option.noConfusion hx
          have hcl : (c.toNat : Int) = c := Int.toNat_of_nonneg hc0
          exact erase_insert_perm it (c.toNat + 1) c.toNat l hx (by omega)
    · rw [move_down_noop ⟨l, c⟩ hc]
  · intro h
    change c = (l.length : Int) - 1 at h
    exact move_down_noop ⟨l, c⟩ (show ¬ (c < (l.length : Int) - 1 ∧ c ≠ -1) by omega)
  · intro h0 h1
    change 0 ≤ c at h0
    change c < (l.length : Int) - 1 at h1
    have hcl : (c.toNat : Int) = c := Int.toNat_of_nonneg h0
    have h2 : c.toNat + 1 < l.length := by omega
    obtain ⟨x, hx⟩ : ∃ x, l[c.toNat]? = some x :=
      ⟨l.get ⟨c.toNat, by omega⟩, List.getElem?_eq_getElem (by omega)⟩
    obtain ⟨hr1, hr2⟩ := erase_insert_roundtrip x c.toNat l hx h2
    have ht : (c + 1).toNat = c.toNat + 1 := by omega
    rw [move_down_eq_of_get ⟨l, c⟩ ⟨h1, show c ≠ -1 by omega⟩ x hx]
    rw [move_up_eq_of_get
      ⟨(l.eraseIdx c.toNat).insertIdx (c.toNat + 1) x, c + 1⟩
      (show (0 : Int) < c + 1 by omega) x
      (show ((l.eraseIdx c.toNat).insertIdx (c.toNat + 1) x)[(c + 1).toNat]? = some x by
        rw [ht]; exact hr1)]
    show ListState.mk
        ((((l.eraseIdx c.toNat).insertIdx (c.toNat + 1) x).eraseIdx ((c + 1).toNat)).insertIdx
          ((c + 1).toNat - 1) x) (c + 1 - 1)
      = ListState.mk l c
    rw [ht, Nat.add_sub_cancel, hr2]
    have hcc : c + 1 - 1 = c := by omega
    rw [hcc]

/-- C6 amended witness: a two-entry assembly with the first entry
selected. -/
theorem move_preserves_entries_and_roundtrips_witness :
    ((move_up { items := [pdFixA, pdFixB], currentRow := 0 }).items).Perm [pdFixA, pdFixB] ∧
    move_up (move_down { items := [pdFixA, pdFixB], currentRow := 0 })
      = { items := [pdFixA, pdFixB], currentRow := 0 } :=
  ⟨(move_preserves_entries_and_roundtrips
      { items := [pdFixA, pdFixB], currentRow := 0 } (by decide)).1,
   (move_preserves_entries_and_roundtrips
      { items := [pdFixA, pdFixB], currentRow := 0 } (by decide)).2.2.2
      (by decide) (by decide)⟩

/-- C7: adding a readable source of `n` pages appends exactly one entry
per page, indices `0..n-1` in natural page order, every appended entry
referencing that source with an empty overlays list, and the entries
already present — whatever overlays they carry or carried — are untouched. -/
theorem add_pdf_appends_fresh_entries (env : Env) (items : List PageData)
    (path : String) (pages : List SrcPage) (h : env.fs path = some pages) :
    (add_pdf_path env items path).take items.length = items ∧
    ((add_pdf_path env items path).drop items.length).map PageData.page_number
      = List.range pages.length ∧
    ∀ pd ∈ (add_pdf_path env items path).drop items.length,
      pd.pdf_path = path ∧ pd.direct_texts = [] := by
  have hbody : add_pdf_path env items path
      = items ++ (List.range pages.length).map fun i =>
          { pdf_path := path, page_number := i, pixmap := env.render path i,
            direct_texts := [] } := by
    unfold add_pdf_path
    rw [h]
  rw [hbody]
  refine ⟨?_, ?_, ?_⟩
  · rw [List.take_left]
  · rw [List.drop_left, List.map_map]
    have hcomp : (PageData.page_number ∘ fun i =>
        ({ pdf_path := path, page_number := i, pixmap := env.render path i,
           direct_texts := [] } : PageData)) = (id : Nat → Nat) := rfl
    rw [hcomp, List.map_id]
  · intro pd hpd
    rw [List.drop_left] at hpd
    simp only [List.mem_map] at hpd
    obtain ⟨i, hi, rfl⟩ := hpd
    exact ⟨rfl, rfl⟩

/-- C7 witness: re-adding `a.pdf` to an assembly whose only entry carries
an overlay; the appended entry is fresh and overlay-free. -/
theorem add_pdf_appends_fresh_entries_witness :
    (add_pdf_path envFix [entryFixD] "a.pdf").take 1 = [entryFixD] ∧
    ((add_pdf_path envFix [entryFixD] "a.pdf").drop 1).map PageData.page_number
      = List.range 1 ∧
    ∀ pd ∈ (add_pdf_path envFix [entryFixD] "a.pdf").drop 1,
      pd.pdf_path = "a.pdf" ∧ pd.direct_texts = [] :=
  add_pdf_appends_fresh_entries envFix [entryFixD] "a.pdf" [pFixA] (by decide)

/-- C8: the commit-time transform produces exactly `screen_to_pdf` of the
draft's screen position, and the spec-modelled inverse `pdf_to_screen`
recovers that screen position exactly, for every zoom factor greater than
zero and every nonnegative page height. -/
theorem pdf_to_screen_inverts_commit (d : DirectTextDialog) (it : DirectTextItem)
    (hz : 0 < d.direct_zoom) (_hh : 0 ≤ d.pdf_height) :
    ((itemToTextData d it).x, (itemToTextData d it).y)
        = screen_to_pdf it.posX it.posY d.direct_zoom d.pdf_height ∧
    pdf_to_screen (itemToTextData d it).x (itemToTextData d it).y
        d.direct_zoom d.pdf_height = (it.posX, it.posY) := by
  have hz0 : d.direct_zoom ≠ 0 := ne_of_gt hz
  refine ⟨rfl, ?_⟩
  unfold pdf_to_screen itemToTextData
  dsimp only
  refine Prod.ext ?_ ?_
  · dsimp only
    field_simp
  · dsimp only
    field_simp

/-- C8 witness: the concrete dialog at zoom 2 on a 792-point-high page. -/
theorem pdf_to_screen_inverts_commit_witness :
    ((itemToTextData dlgFix itFixA).x, (itemToTextData dlgFix itFixA).y)
        = screen_to_pdf itFixA.posX itFixA.posY dlgFix.direct_zoom dlgFix.pdf_height ∧
    pdf_to_screen (itemToTextData dlgFix itFixA).x (itemToTextData dlgFix itFixA).y
        dlgFix.direct_zoom dlgFix.pdf_height = (itFixA.posX, itFixA.posY) :=
  pdf_to_screen_inverts_commit dlgFix itFixA (by norm_num [dlgFix]) (by norm_num [dlgFix])

/-- C10: with no selection (current row `-1`), or with the selection at
the respective boundary, move-up and move-down leave the whole list state
unchanged. -/
theorem move_noop_without_selection_or_at_boundary (s : ListState) :
    (s.currentRow = -1 → move_up s = s ∧ move_down s = s) ∧
    (s.currentRow = 0 → move_up s = s) ∧
    (s.currentRow = (s.items.length : Int) - 1 → move_down s = s) :=
  ⟨fun h => ⟨move_up_noop s (by omega), move_down_noop s (by omega)⟩,
   fun h => move_up_noop s (by omega),
   fun h => move_down_noop s (by omega)⟩

/-- C10 witness: a two-entry list with no selection, and with the last
entry selected. -/
theorem move_noop_without_selection_or_at_boundary_witness :
    (move_up { items := [pdFixA, pdFixB], currentRow := -1 }
        = { items := [pdFixA, pdFixB], currentRow := -1 } ∧
     move_down { items := [pdFixA, pdFixB], currentRow := -1 }
        = { items := [pdFixA, pdFixB], currentRow := -1 }) ∧
    move_down { items := [pdFixA, pdFixB], currentRow := 1 }
        = { items := [pdFixA, pdFixB], currentRow := 1 } :=
  ⟨(move_noop_without_selection_or_at_boundary
      { items := [pdFixA, pdFixB], currentRow := -1 }).1 rfl,
   (move_noop_without_selection_or_at_boundary
      { items := [pdFixA, pdFixB], currentRow := 1 }).2.2 (by decide)⟩
